import Mathlib

/-!
Verification of the quality-detection engine and flag lifecycle of the
image-annotation curation tool.

The Python sources are shallowly embedded: Python strings become `List Char`
(`Str`), Python dicts become insertion-ordered association lists, JSON values
become the inductive `JValue`, and each Python function that the claims touch
is translated into an executable Lean definition of the same name.
Python-specific behaviours are preserved faithfully, in particular:
`str.count` counts non-overlapping occurrences scanning left to right,
`isinstance(x, int)` is true for Python booleans, dict assignment keeps the
position of an existing key and appends a fresh key, and `text[-500:]` takes
the whole string when it is shorter than 500 characters.
-/

/-- Python strings are modelled as lists of characters. -/
abbrev Str := List Char

/-- Convert a Lean string literal into the `Str` model. -/
def chars (s : String) : Str := s.data

/-- The ASCII whitespace characters recognised by Python `str.split()` and
`str.strip()` (the Unicode extras are irrelevant to this code base). -/
def isWs (c : Char) : Bool :=
  c = ' ' ∨ c = '\t' ∨ c = '\n' ∨ c = '\r' ∨ c = '\x0b' ∨ c = '\x0c'

/-- Python substring test `needle in hay`. -/
def hasSub (needle hay : Str) : Bool :=
  (List.range (hay.length + 1)).any (fun i => needle.isPrefixOf (List.drop i hay))

/-- Number of start positions at which `p` occurs in `t` (overlapping
occurrences counted independently).  This is NOT what Python `str.count`
computes; it is the reading of "occurrence count" that claim C2 asserts. -/
def occStarts (p t : Str) : Nat :=
  ((List.range (t.length + 1)).filter (fun i => p.isPrefixOf (List.drop i t))).length

/-- Recursion core of `pyCount`, structural on a fuel argument so that the
kernel can evaluate it; every step consumes at least one character, so a fuel
equal to the text length is always enough. -/
def pyCountAux (p : Str) : Nat → Str → Nat
  | 0, _ => 0
  | _, [] => 0
  | fuel + 1, c :: rest =>
    if p.isPrefixOf (c :: rest) ∧ p ≠ [] then
      pyCountAux p fuel (List.drop (p.length - 1) rest) + 1
    else
      pyCountAux p fuel rest

/-- Python `t.count(p)` for a non-empty needle `p`: scan left to right and
count non-overlapping occurrences, resuming after the end of each match.
(The call sites in this code base always pass a needle of length at least 2.) -/
def pyCount (p t : Str) : Nat := pyCountAux p t.length t

/-- Helper for `splitWs`: the accumulator holds the current word reversed. -/
def splitWsAux : Str → Str → List Str
  | [], acc => if acc = [] then [] else [acc.reverse]
  | c :: cs, acc =>
    if isWs c then
      if acc = [] then splitWsAux cs [] else acc.reverse :: splitWsAux cs []
    else
      splitWsAux cs (c :: acc)

/-- Python `text.split()`: split on runs of whitespace, dropping empty parts. -/
def splitWs (t : Str) : List Str := splitWsAux t []

/-- Keep the first occurrence of each word, in order of first appearance
(the iteration order of a Python `Counter` built from the word list). -/
def firstOccsAux : List Str → List Str → List Str
  | _, [] => []
  | seen, w :: ws =>
    if w ∈ seen then firstOccsAux seen ws else w :: firstOccsAux (w :: seen) ws

/-- Python `Counter(words).most_common(1)[0]`: the word with the highest
multiplicity; ties are broken by first appearance (Counter preserves
insertion order and `most_common` sorts stably). Returns `([], 0)` on an
empty word list (the callers guard against that case). -/
def mostCommon (ws : List Str) : Str × Nat :=
  (firstOccsAux [] ws).foldl
    (fun best w =>
      let c := ws.countP (fun x => decide (x = w))
      if best.2 < c then (w, c) else best)
    ([], 0)

/-- Python string comparison (lexicographic on code points), non-strict. -/
def strLe : Str → Str → Bool
  | [], _ => true
  | _ :: _, [] => false
  | a :: xs, b :: ys =>
    if a.val < b.val then true
    else if b.val < a.val then false
    else strLe xs ys

/-- Insertion step of insertion sort by `strLe`. -/
def insertStr (w : Str) : List Str → List Str
  | [] => [w]
  | x :: xs => if strLe w x then w :: x :: xs else x :: insertStr w xs

/-- Python `sorted` on a list of strings (the inputs it is applied to here
have no duplicates, so any correct sort gives the same result). -/
def sortStr : List Str → List Str
  | [] => []
  | x :: xs => insertStr x (sortStr xs)

/-- Lookup in an insertion-ordered association list (Python `d[k]` / `k in d`). -/
def lookupStr {α : Type} : List (Str × α) → Str → Option α
  | [], _ => none
  | (k2, v) :: rest, k => if k2 = k then some v else lookupStr rest k

/-- Python dict assignment `d[k] = v`: overwrite in place if the key exists,
otherwise append at the end. -/
def dictSet {α : Type} : List (Str × α) → Str → α → List (Str × α)
  | [], k, v => [(k, v)]
  | (k2, v2) :: rest, k, v =>
    if k2 = k then (k2, v) :: rest else (k2, v2) :: dictSet rest k v

/-- Python `d[k] = d.get(k, 0) + 1`. -/
def dictBump : List (Str × Nat) → Str → List (Str × Nat)
  | [], k => [(k, 1)]
  | (k2, n) :: rest, k =>
    if k2 = k then (k2, n + 1) :: rest else (k2, n) :: dictBump rest k

/-- The record returned by `detect_repetitive_pattern` on success. -/
structure PatternInfo where
  pattern : Str
  count : Nat
  pattern_length : Nat
deriving DecidableEq

/-- The first (substring) stage of `detect_repetitive_pattern`
(validation.py lines 16-27): for candidate lengths 2..50, skipping lengths
exceeding the text length, take the prefix of that length and report it as
soon as its `str.count` in the text reaches `min_repeats`. -/
def subDetect (text : Str) (minRepeats : Nat) : Option PatternInfo :=
  match (List.range' 2 49).find?
      (fun L => decide (L ≤ text.length) && decide (minRepeats ≤ pyCount (text.take L) text)) with
  | some L => some ⟨(text.take L).take 50, pyCount (text.take L) text, L⟩
  | none => none

/-- `detect_repetitive_pattern(text, min_repeats)` from
src/image_annotation/utils/validation.py: the substring stage, then the
word-repetition stage (only when there are more than 20 words), else `none`. -/
def detect_repetitive_pattern (text : Str) (minRepeats : Nat) : Option PatternInfo :=
  match subDetect text minRepeats with
  | some i => some i
  | none =>
    let words := splitWs text
    if 20 < words.length then
      let mc := mostCommon words
      if minRepeats ≤ mc.2 then
        some ⟨chars "word: " ++ mc.1, mc.2, mc.1.length⟩
      else none
    else none

/-- `has_repetitive_pattern(text, min_repeats)` from validation.py lines
44-71: returns `false` for texts of at most 1000 characters, then checks the
corruption marker in the last 500 characters, then prefix lengths 2..10. -/
def has_repetitive_pattern (text : Str) (minRepeats : Nat) : Bool :=
  if text.length ≤ 1000 then false
  else if hasSub (chars "!#system") (List.drop (text.length - 500) text) then true
  else (List.range' 2 9).any
    (fun L => decide (L ≤ text.length) && decide (minRepeats ≤ pyCount (text.take L) text))

/-- JSON-like Python values: `jfloat` stands for an arbitrary float (its
numeric value never matters to the validator) and `jbool` is kept distinct
from `jint` even though Python treats `bool` as a subtype of `int`. -/
inductive JValue where
  | jnull : JValue
  | jbool : Bool → JValue
  | jint : Int → JValue
  | jfloat : JValue
  | jstr : Str → JValue
  | jarr : List JValue → JValue
  | jobj : List (Str × JValue) → JValue

/-- Python `isinstance(v, int)`: true for ints AND for bools, because `bool`
is a subclass of `int` in Python. -/
def pyIsInt : JValue → Bool
  | .jint _ => true
  | .jbool _ => true
  | _ => false

/-- Python `isinstance(v, list)`. -/
def pyIsList : JValue → Bool
  | .jarr _ => true
  | _ => false

/-- Python truthiness of a JSON value (empty containers, empty strings, zero
and `None` are falsy; the opaque `jfloat` stands for a nonzero float). -/
def jvTruthy : JValue → Bool
  | .jnull => false
  | .jbool b => b
  | .jint n => decide (n ≠ 0)
  | .jfloat => true
  | .jstr s => decide (s ≠ [])
  | .jarr xs => !xs.isEmpty
  | .jobj kvs => !kvs.isEmpty

/-- One violation reported by `validate_structured_inventory_schema`.  Each
constructor corresponds to one `errors.append(...)` in the source, carrying
exactly the values interpolated into the message (the messages that format a
Python set are represented by the list of offending keys in dict order). -/
inductive SchemaErr where
  | rootNotDict : SchemaErr
  | invalidCategories : List Str → SchemaErr
  | categoryNotDict : Str → SchemaErr
  | itemNotDict : Str → Str → SchemaErr
  | invalidAttrs : Str → Str → List Str → SchemaErr
  | countNotInt : Str → Str → SchemaErr
  | colorNotList : Str → Str → SchemaErr
deriving DecidableEq

/-- The four valid level-1 categories. -/
def validCategories : List Str :=
  [chars "human", chars "animal", chars "man-made", chars "natural"]

/-- The five valid level-3 attribute keys. -/
def validAttributes : List Str :=
  [chars "count", chars "location", chars "color", chars "size", chars "description"]

/-- Python `"count" in attributes and not isinstance(attributes["count"], int)`. -/
def countViolation (attrs : List (Str × JValue)) : Bool :=
  match lookupStr attrs (chars "count") with
  | some v => !pyIsInt v
  | none => false

/-- Python `"color" in attributes and not isinstance(attributes["color"], list)`. -/
def colorViolation (attrs : List (Str × JValue)) : Bool :=
  match lookupStr attrs (chars "color") with
  | some v => !pyIsList v
  | none => false

/-- Body of the inner loop of the validator (validation.py lines 111-128):
the checks applied to one item of one category.  `itemNotDict` skips the
remaining checks, mirroring the `continue`. -/
def itemErrors (cat : Str) (it : Str × JValue) : List SchemaErr :=
  match it.2 with
  | .jobj attrs =>
    (if (attrs.map Prod.fst).filter (fun k => decide (¬ k ∈ validAttributes)) = [] then []
     else [.invalidAttrs cat it.1
            ((attrs.map Prod.fst).filter (fun k => decide (¬ k ∈ validAttributes)))])
    ++ (if countViolation attrs then [.countNotInt cat it.1] else [])
    ++ (if colorViolation attrs then [.colorNotList cat it.1] else [])
  | _ => [.itemNotDict cat it.1]

/-- Body of the outer loop of the validator (validation.py lines 106-128):
the checks applied to one top-level category entry, whatever its name. -/
def catErrors (kv : Str × JValue) : List SchemaErr :=
  match kv.2 with
  | .jobj items => (items.map (itemErrors kv.1)).flatten
  | _ => [.categoryNotDict kv.1]

/-- `validate_structured_inventory_schema(data)` from validation.py lines
74-130: root type check, the combined invalid-level-1-categories error, then
the level-2/level-3 checks applied to every category in dict order. -/
def validate_structured_inventory_schema : JValue → List SchemaErr
  | .jobj kvs =>
    (let inv := (kvs.map Prod.fst).filter (fun k => decide (¬ k ∈ validCategories))
     if inv = [] then [] else [.invalidCategories inv])
    ++ (kvs.map catErrors).flatten
  | _ => [.rootNotDict]



/-- One prompt entry of one model (the `PromptResult` of the data model):
the fields the audited operations read or write, in record order.  A missing
`quality_flags` key is `none`; the two metrics blocks are kept opaque. -/
structure PromptData where
  prompt_text : Str := []
  response : Str := []
  response_format : Str := []
  response_data : Option JValue := none
  error : Option Str := none
  token_metrics : Option JValue := none
  performance_metrics : Option JValue := none
  quality_flags : Option (List Str) := none

/-- One model annotation pass: the model name, its temperature (opaque), and
the insertion-ordered prompt mapping. -/
structure ModelAnn where
  model : Str
  temperature : Option JValue := none
  prompts : List (Str × PromptData)

/-- One annotation record (one file, held fully in memory): the image block
(opaque) and the ordered list of model annotation passes. -/
structure AnnFile where
  image : List (Str × JValue) := []
  annotations : List ModelAnn

/-- Python `error and "JSON parsing failed" in error`. -/
def jsonFailErr : Option Str → Bool
  | none => false
  | some s => !s.isEmpty && hasSub (chars "JSON parsing failed") s

/-- Python `not response or len(response.strip()) == 0`: true exactly when
the response consists only of whitespace (including the empty string). -/
def blankResp (r : Str) : Bool := r.all isWs

/-- The per-entry check list of `flag_problematic_annotations`
(annotation_tools.py lines 440-471), producing the flag strings in the order
the source appends them: `too_long`; then, only for responses longer than
1000 characters, the `!#system` marker in the last 500 characters and the
first prefix length 2..10 whose `str.count` reaches 50 (each may append
`repetitive_pattern`, so it can appear twice); then `json_parse_error`;
then `empty_response`. -/
def computeFlags (maxLen : Nat) (pd : PromptData) : List Str :=
  (if maxLen < pd.response.length then [chars "too_long"] else [])
  ++ (if 1000 < pd.response.length then
        (if hasSub (chars "!#system") (List.drop (pd.response.length - 500) pd.response) then
          [chars "repetitive_pattern"] else [])
        ++ (if (List.range' 2 9).any
              (fun L => decide (L ≤ pd.response.length)
                && decide (50 ≤ pyCount (pd.response.take L) pd.response)) then
            [chars "repetitive_pattern"] else [])
      else [])
  ++ (if jsonFailErr pd.error then [chars "json_parse_error"] else [])
  ++ (if blankResp pd.response then [chars "empty_response"] else [])

/-- Write-back of the computed flags on one entry: set `quality_flags` when
some check fired, otherwise pop the key (annotation_tools.py lines 473-483). -/
def flagEntry (maxLen : Nat) (kp : Str × PromptData) : Str × PromptData :=
  let fl := computeFlags maxLen kp.2
  if fl = [] then (kp.1, { kp.2 with quality_flags := none })
  else (kp.1, { kp.2 with quality_flags := some fl })

/-- The prompt loop of `flag_problematic_annotations`, threading the
`total_flagged` counter and the `flagged_by_type` dict. -/
def flagPrompts (maxLen : Nat) :
    List (Str × PromptData) → Nat → List (Str × Nat) →
    List (Str × PromptData) × Nat × List (Str × Nat)
  | [], t, bt => ([], t, bt)
  | (k, pd) :: rest, t, bt =>
    let fl := computeFlags maxLen pd
    if fl = [] then
      let r := flagPrompts maxLen rest t bt
      ((k, { pd with quality_flags := none }) :: r.1, r.2)
    else
      let r := flagPrompts maxLen rest (t + 1) (fl.foldl dictBump bt)
      ((k, { pd with quality_flags := some fl }) :: r.1, r.2)

/-- The annotation loop of `flag_problematic_annotations`. -/
def flagAnns (maxLen : Nat) :
    List ModelAnn → Nat → List (Str × Nat) →
    List ModelAnn × Nat × List (Str × Nat)
  | [], t, bt => ([], t, bt)
  | a :: rest, t, bt =>
    let r := flagPrompts maxLen a.prompts t bt
    let r2 := flagAnns maxLen rest r.2.1 r.2.2
    ({ a with prompts := r.1 } :: r2.1, r2.2)

/-- `flag_problematic_annotations` (annotation_tools.py lines 390-509) on one
in-memory record: the updated record together with `total_flagged` and
`flagged_by_type`.  (The source writes the record back to its file only when
at least one entry got flagged on this pass; the returned record is what is
written in that case.) -/
def flag_problematic_annotations (maxLen : Nat) (f : AnnFile) :
    AnnFile × Nat × List (Str × Nat) :=
  let r := flagAnns maxLen f.annotations 0 []
  ({ f with annotations := r.1 }, r.2)

/-- The per-entry issue list of `check_annotation_quality`
(check_annotation_quality.py lines 170-197): `too_long`, `json_parse_error`,
`repetitive_pattern` via the full detector at `min_repeats=50`,
`empty_response`, and `invalid_schema` for a truthy `response_data` of a
`structured_inventory` prompt. -/
def issueTypesFor (maxLen : Nat) (promptKey : Str) (pd : PromptData) : List Str :=
  (if maxLen < pd.response.length then [chars "too_long"] else [])
  ++ (if jsonFailErr pd.error then [chars "json_parse_error"] else [])
  ++ (match detect_repetitive_pattern pd.response 50 with
      | some _ => [chars "repetitive_pattern"]
      | none => [])
  ++ (if blankResp pd.response then [chars "empty_response"] else [])
  ++ (if promptKey = chars "structured_inventory" then
        match pd.response_data with
        | some d =>
          if jvTruthy d then
            if validate_structured_inventory_schema d = [] then [] else [chars "invalid_schema"]
          else []
        | none => []
      else [])

/-- The removal predicate of `remove_flagged_annotations` (annotation_tools.py
lines 558-572): the entry has a non-empty `quality_flags` list and either no
filter was given or one of its flags is in the filter. -/
def shouldRemove (flagTypes : Option (List Str)) (pd : PromptData) : Bool :=
  let fs := pd.quality_flags.getD []
  !fs.isEmpty &&
    (match flagTypes with
     | none => true
     | some ts => fs.any (fun fl => decide (fl ∈ ts)))

/-- One annotation pass of `remove_flagged_annotations`: collect the keys to
remove, delete them from the prompt mapping (distinct keys, so deleting the
collected keys keeps exactly the entries whose key was not collected), and
report how many were removed. -/
def removeAnn (flagTypes : Option (List Str)) (a : ModelAnn) : ModelAnn × Nat :=
  let toRemove := (a.prompts.filter (fun kp => shouldRemove flagTypes kp.2)).map Prod.fst
  ({ a with prompts := a.prompts.filter (fun kp => decide (¬ kp.1 ∈ toRemove)) },
   toRemove.length)

/-- The annotation loop of `remove_flagged_annotations` over one record. -/
def removeAnns (flagTypes : Option (List Str)) :
    List ModelAnn → List ModelAnn × Nat
  | [] => ([], 0)
  | a :: rest =>
    let r := removeAnn flagTypes a
    let r2 := removeAnns flagTypes rest
    (r.1 :: r2.1, r.2 + r2.2)

/-- `remove_flagged_annotations` on one in-memory record: the updated record
and the number of prompt entries removed from it. -/
def removeFile (flagTypes : Option (List Str)) (f : AnnFile) : AnnFile × Nat :=
  let r := removeAnns flagTypes f.annotations
  ({ f with annotations := r.1 }, r.2)

/-- `remove_flagged_annotations` (annotation_tools.py lines 512-606) over a
batch of records: the updated records, `total_removed`, and `files_modified`
(a file counts as modified when at least one of its entries was removed). -/
def remove_flagged_annotations (flagTypes : Option (List Str)) :
    List AnnFile → List AnnFile × Nat × Nat
  | [] => ([], 0, 0)
  | f :: rest =>
    let r := removeFile flagTypes f
    let r2 := remove_flagged_annotations flagTypes rest
    (r.1 :: r2.1, r.2 + r2.2.1, (if 0 < r.2 then 1 else 0) + r2.2.2)

/-- The fixed prompt-key enumeration of `find_missing_prompts`
(reannotate_missing_prompts.py lines 97-103). -/
def expectedPrompts : List Str :=
  [chars "general_description", chars "foreground_background",
   chars "entities_interactions", chars "mood_emotions", chars "structured_inventory"]

/-- `sorted(expected_prompts - existing_prompts)` for one model annotation:
the expected keys absent from its prompt mapping, in Python sorted order. -/
def missingOf (a : ModelAnn) : List Str :=
  sortStr (expectedPrompts.filter (fun p => decide (¬ p ∈ a.prompts.map Prod.fst)))

/-- One iteration of the `find_missing_prompts` loop: record the sorted
missing list under the model name when it is non-empty. -/
def fmStep (acc : List (Str × List Str)) (a : ModelAnn) : List (Str × List Str) :=
  if missingOf a = [] then acc else dictSet acc a.model (missingOf a)

/-- `find_missing_prompts` (reannotate_missing_prompts.py lines 88-114): the
dict mapping each model name with missing prompts to its sorted missing list. -/
def find_missing_prompts (f : AnnFile) : List (Str × List Str) :=
  f.annotations.foldl fmStep []

/-- The id, instruction text and expected format of one catalog prompt
(the `VLMPrompt` consumed from the prompt catalog). -/
structure PromptSpec where
  id : Str
  text : Str
  expected_format : Str

/-- The result record of one `service.annotate_image` call (the external
generation service; the core only consumes it). -/
structure GenOut where
  prompt_text : Str
  response : Str
  response_format : Str
  response_data : Option JValue := none
  error : Option Str := none
  token_metrics : Option JValue := none
  performance_metrics : Option JValue := none

/-- The entry written back on a successful regeneration call
(reannotate_missing_prompts.py lines 173-185). -/
def okEntry (r : GenOut) : PromptData :=
  { prompt_text := r.prompt_text, response := r.response,
    response_format := r.response_format, response_data := r.response_data,
    error := r.error, token_metrics := r.token_metrics,
    performance_metrics := r.performance_metrics, quality_flags := none }

/-- The entry written back when the regeneration call raises
(reannotate_missing_prompts.py lines 200-211): the failure description in
`error`, an empty response, and null data and metrics. -/
def errEntry (p : PromptSpec) (e : Str) : PromptData :=
  { prompt_text := p.text, response := [], response_format := p.expected_format,
    response_data := none, error := some e, token_metrics := none,
    performance_metrics := none, quality_flags := none }

/-- The entry one regeneration attempt produces, depending on whether the
service call returns or raises. -/
def entryFor (svc : Str → Str → Except Str GenOut) (pById : Str → PromptSpec)
    (model pid : Str) : PromptData :=
  match svc model pid with
  | .ok r => okEntry r
  | .error e => errEntry (pById pid) e

/-- The prompt loop of `reannotate_missing` for one model annotation: each
missing prompt id is attempted in turn and its entry stored into the prompt
mapping; a raising call is caught and stored as an error entry, and the loop
continues.  Also counts the processed prompts (`reannotated_count`). -/
def processMissing (svc : Str → Str → Except Str GenOut) (pById : Str → PromptSpec)
    (model : Str) :
    List Str → List (Str × PromptData) → List (Str × PromptData) × Nat
  | [], d => (d, 0)
  | pid :: rest, d =>
    let r := processMissing svc pById model rest
      (dictSet d pid (entryFor svc pById model pid))
    (r.1, r.2 + 1)

/-- The annotation loop of `reannotate_missing`: annotations whose model has
no missing prompts are left untouched. -/
def reannAnns (svc : Str → Str → Except Str GenOut) (pById : Str → PromptSpec)
    (mbm : List (Str × List Str)) :
    List ModelAnn → List ModelAnn × Nat
  | [] => ([], 0)
  | a :: rest =>
    let r2 := reannAnns svc pById mbm rest
    match lookupStr mbm a.model with
    | none => (a :: r2.1, r2.2)
    | some miss =>
      let pr := processMissing svc pById a.model miss a.prompts
      ({ a with prompts := pr.1 } :: r2.1, pr.2 + r2.2)

/-- `reannotate_missing` (reannotate_missing_prompts.py lines 117-219) on one
in-memory record, parameterised by the external generation service and the
prompt catalog: the updated record and `reannotated_count`. -/
def reannotate_missing (svc : Str → Str → Except Str GenOut)
    (pById : Str → PromptSpec) (f : AnnFile) : AnnFile × Nat :=
  let r := reannAnns svc pById (find_missing_prompts f) f.annotations
  ({ f with annotations := r.1 }, r.2)

/-- An ascending `range'` scan returns its first satisfying element: if some
`L` in the scanned interval satisfies `p`, then `find?` returns an `M ≤ L`
satisfying `p` with every earlier candidate failing. -/
theorem range'_find?_first :
    ∀ (n a L : Nat) (p : Nat → Bool), a ≤ L → L < a + n → p L = true →
      ∃ M, (List.range' a n).find? p = some M ∧ M ≤ L ∧ p M = true ∧
        ∀ k, a ≤ k → k < M → p k = false := by
  intro n
  induction n with
  | zero => intro a L p h1 h2 _; omega
  | succ n ih =>
    intro a L p h1 h2 hp
    rw [List.range'_succ a n 1, List.find?_cons]
    cases hpa : p a with
    | true =>
      exact ⟨a, rfl, h1, hpa, fun k hk1 hk2 => absurd (Nat.lt_of_lt_of_le hk2 hk1) (Nat.lt_irrefl k)⟩
    | false =>
      have hLa : a + 1 ≤ L := by
        rcases Nat.eq_or_lt_of_le h1 with h | h
        · exfalso; rw [← h] at hp; rw [hpa] at hp; exact Bool.false_ne_true hp
        · omega
      obtain ⟨M, hfind, hML, hpM, hmin⟩ := ih (a + 1) L p hLa (by omega) hp
      refine ⟨M, hfind, hML, hpM, ?_⟩
      intro k hk1 hk2
      rcases Nat.eq_or_lt_of_le hk1 with h | h
      · rw [← h]; exact hpa
      · exact hmin k (by omega) hk2

/-- C1 (amended). If the prefix of `T` of some length `L` with 2 ≤ L ≤ 50 and
L ≤ |T| has a non-overlapping occurrence count (Python `str.count`) of at
least `min_repeats` in `T`, then `detect_repetitive_pattern(T, min_repeats)`
returns a result whose `pattern_length` is the shortest such qualifying
length, hence at most `L`; its `count` field is the `str.count` of that
prefix and reaches `min_repeats`.  (The code scans lengths 2..50, not 1..50.) -/
theorem detect_reports_shortest_qualifying_len (text : Str) (m L : Nat)
    (h2 : 2 ≤ L) (h50 : L ≤ 50) (hlen : L ≤ text.length)
    (hq : m ≤ pyCount (text.take L) text) :
    ∃ info, detect_repetitive_pattern text m = some info ∧
      info.pattern_length ≤ L ∧ 2 ≤ info.pattern_length ∧ info.pattern_length ≤ 50 ∧
      info.pattern_length ≤ text.length ∧
      info.count = pyCount (text.take info.pattern_length) text ∧ m ≤ info.count ∧
      ∀ L2, 2 ≤ L2 → L2 < info.pattern_length →
        ¬ (L2 ≤ text.length ∧ m ≤ pyCount (text.take L2) text) := by
  have hpL : (fun L => decide (L ≤ text.length)
      && decide (m ≤ pyCount (text.take L) text)) L = true := by
    simp only [Bool.and_eq_true, decide_eq_true_eq]
    exact ⟨hlen, hq⟩
  obtain ⟨M, hfind, hML, hpM, hmin⟩ :=
    range'_find?_first 49 2 L
      (fun L => decide (L ≤ text.length) && decide (m ≤ pyCount (text.take L) text))
      h2 (by omega) hpL
  have hmem := List.mem_of_find?_eq_some hfind
  rw [List.mem_range'_1] at hmem
  have hsub : subDetect text m
      = some ⟨(text.take M).take 50, pyCount (text.take M) text, M⟩ := by
    unfold subDetect
    rw [hfind]
  simp only [Bool.and_eq_true, decide_eq_true_eq] at hpM
  refine ⟨⟨(text.take M).take 50, pyCount (text.take M) text, M⟩, ?_, hML, hmem.1,
    (show M ≤ 50 by omega), hpM.1, rfl, hpM.2, ?_⟩
  · unfold detect_repetitive_pattern
    rw [hsub]
  · intro L2 hL2a hL2b hcon
    have := hmin L2 hL2a hL2b
    simp only [Bool.and_eq_true, decide_eq_true_eq] at this
    rw [Bool.and_eq_false_iff] at this
    rcases this with h | h <;> simp only [decide_eq_false_iff_not] at h
    · exact h hcon.1
    · exact h hcon.2

/-- Witness for the amended C1 theorem at `T = "ababab"`, `min_repeats = 3`,
`L = 2`. -/
theorem detect_reports_shortest_qualifying_len_witness :
    ∃ info, detect_repetitive_pattern (chars "ababab") 3 = some info ∧
      info.pattern_length ≤ 2 ∧ 2 ≤ info.pattern_length ∧ info.pattern_length ≤ 50 ∧
      info.pattern_length ≤ (chars "ababab").length ∧
      info.count = pyCount ((chars "ababab").take info.pattern_length) (chars "ababab") ∧
      3 ≤ info.count ∧
      ∀ L2, 2 ≤ L2 → L2 < info.pattern_length →
        ¬ (L2 ≤ (chars "ababab").length
          ∧ 3 ≤ pyCount ((chars "ababab").take L2) (chars "ababab")) :=
  detect_reports_shortest_qualifying_len (chars "ababab") 3 2
    (by decide) (by decide) (by decide) (by decide)

/-- Counterexample to C1 as stated: in `T = "aXaYa"` the prefix of length
`L = 1` (the character `a`) occurs 3 times — under the non-overlapping count
and under the count-all-start-positions reading alike — yet
`detect_repetitive_pattern(T, 3)` returns `None`: the loop scans candidate
lengths 2..50, never length 1. -/
theorem detect_misses_length_one_prefix :
    ((chars "aXaYa").take 1 = chars "a"
      ∧ pyCount (chars "a") (chars "aXaYa") = 3
      ∧ occStarts (chars "a") (chars "aXaYa") = 3
      ∧ 1 ≤ (chars "aXaYa").length)
    ∧ detect_repetitive_pattern (chars "aXaYa") 3 = none := by decide

/-- C2 (amended). Whenever the substring stage of the detector fires, the
returned `count` field — the number compared against `min_repeats` — is the
Python `str.count` of the reported prefix in the text, i.e. the number of
non-overlapping occurrences scanning left to right, and it reaches
`min_repeats`. -/
theorem detect_count_is_nonoverlapping_count (text : Str) (m : Nat) (info : PatternInfo)
    (h : subDetect text m = some info) :
    detect_repetitive_pattern text m = some info ∧
    info.count = pyCount (text.take info.pattern_length) text ∧
    m ≤ info.count := by
  have hdet : detect_repetitive_pattern text m = some info := by
    unfold detect_repetitive_pattern
    rw [h]
  unfold subDetect at h
  split at h
  case h_1 L hfind =>
    have hpM := List.find?_some hfind
    simp only [Bool.and_eq_true, decide_eq_true_eq] at hpM
    have hinfo : info = ⟨(text.take L).take 50, pyCount (text.take L) text, L⟩ :=
      (Option.some_inj.mp h).symm
    subst hinfo
    exact ⟨hdet, rfl, hpM.2⟩
  case h_2 => exact absurd h (by simp)

/-- Witness for the amended C2 theorem at `T = "aaaa"`, `min_repeats = 2`:
the reported count is the non-overlapping count 2. -/
theorem detect_count_is_nonoverlapping_count_witness :
    detect_repetitive_pattern (chars "aaaa") 2 = some ⟨chars "aa", 2, 2⟩
    ∧ (⟨chars "aa", 2, 2⟩ : PatternInfo).count
        = pyCount ((chars "aaaa").take (⟨chars "aa", 2, 2⟩ : PatternInfo).pattern_length)
            (chars "aaaa")
    ∧ 2 ≤ (⟨chars "aa", 2, 2⟩ : PatternInfo).count :=
  detect_count_is_nonoverlapping_count (chars "aaaa") 2 ⟨chars "aa", 2, 2⟩ (by decide)

/-- Counterexample to C2 as stated: on `T = "aaaa"` with `min_repeats = 2`
the detector reports the prefix `"aa"` with count 2 (Python `str.count`
counts non-overlapping occurrences), while `"aa"` occurs at 3 distinct start
positions in `"aaaa"`; the reported and compared count is 2, not 3. -/
theorem detect_count_ignores_overlaps :
    detect_repetitive_pattern (chars "aaaa") 2 = some ⟨chars "aa", 2, 2⟩
    ∧ occStarts (chars "aa") (chars "aaaa") = 3 := by decide

/-- The 120-character response consisting of `"ab"` repeated 60 times. -/
def abab60 : Str := (List.replicate 60 (chars "ab")).flatten

/-- Counterexample to C4 as stated: the quality-FLAGGING workflow
(`flag_problematic_annotations`, and its detector `has_repetitive_pattern`)
does not flag the 120-character response `"ab" * 60` at `min_repeats = 50`,
because its repetition check only examines responses longer than 1000
characters; the computed flag list is empty. -/
theorem flag_workflow_misses_ab60 :
    abab60.length = 120
    ∧ computeFlags 10000 { response := abab60 } = []
    ∧ has_repetitive_pattern abab60 50 = false := by decide

set_option maxRecDepth 8000 in
/-- C4 (amended). The response `"ab" * 60` (120 characters) at
`min_repeats = 50` is reported as `repetitive_pattern` by the quality-CHECK
workflow (`check_annotation_quality`, whose detector has no length gate),
with pattern `"ab"` and count 60 ≥ 50; the flagging workflow
(`flag_problematic_annotations`) does not flag it, since its repetition
check only examines responses longer than 1000 characters. -/
theorem quality_report_flags_ab60 :
    detect_repetitive_pattern abab60 50 = some ⟨chars "ab", 60, 2⟩
    ∧ issueTypesFor 10000 (chars "general_description") { response := abab60 }
        = [chars "repetitive_pattern"]
    ∧ computeFlags 10000 { response := abab60 } = [] := by decide

/-- Updating `quality_flags` does not change the computed flag list: the
checks read only `response` and `error`. -/
theorem computeFlags_set_qf (maxLen : Nat) (pd : PromptData) (x : Option (List Str)) :
    computeFlags maxLen { pd with quality_flags := x } = computeFlags maxLen pd := rfl

/-- The per-entry pass is idempotent. -/
theorem flagEntry_idem (maxLen : Nat) (kp : Str × PromptData) :
    flagEntry maxLen (flagEntry maxLen kp) = flagEntry maxLen kp := by
  by_cases h : computeFlags maxLen kp.2 = [] <;>
    simp only [flagEntry, computeFlags_set_qf, h, if_true, if_false, if_pos, if_neg,
      not_false_iff]

/-- The record component of the prompt loop is the entrywise `flagEntry` map,
independent of the statistics accumulators. -/
theorem flagPrompts_fst (maxLen : Nat) :
    ∀ (l : List (Str × PromptData)) (t : Nat) (bt : List (Str × Nat)),
      (flagPrompts maxLen l t bt).1 = l.map (flagEntry maxLen) := by
  intro l
  induction l with
  | nil => intro t bt; rfl
  | cons kp rest ih =>
    intro t bt
    obtain ⟨k, pd⟩ := kp
    by_cases h : computeFlags maxLen pd = [] <;>
      simp only [flagPrompts, flagEntry, h, if_true, if_false, if_pos, if_neg,
        not_false_iff, List.map_cons, List.cons.injEq, ih, and_true]

/-- The record component of the annotation loop. -/
theorem flagAnns_fst (maxLen : Nat) :
    ∀ (l : List ModelAnn) (t : Nat) (bt : List (Str × Nat)),
      (flagAnns maxLen l t bt).1
        = l.map (fun a => { a with prompts := a.prompts.map (flagEntry maxLen) }) := by
  intro l
  induction l with
  | nil => intro t bt; rfl
  | cons a rest ih =>
    intro t bt
    simp only [flagAnns, List.map_cons, List.cons.injEq]
    exact ⟨by rw [flagPrompts_fst], ih _ _⟩

/-- Equation lemma: `flagEntry` on a currently clean entry pops the flags. -/
theorem flagEntry_clean (maxLen : Nat) (k : Str) (pd : PromptData)
    (h : computeFlags maxLen pd = []) :
    flagEntry maxLen (k, pd) = (k, { pd with quality_flags := none }) := by
  simp only [flagEntry]
  split
  · rfl
  · next hne => exact absurd h hne

/-- Equation lemma: `flagEntry` on a currently flagged entry stores the
recomputed flag list. -/
theorem flagEntry_flagged (maxLen : Nat) (k : Str) (pd : PromptData)
    (h : ¬ computeFlags maxLen pd = []) :
    flagEntry maxLen (k, pd)
      = (k, { pd with quality_flags := some (computeFlags maxLen pd) }) := by
  simp only [flagEntry]
  split
  · next he => exact absurd he h
  · rfl

/-- Equation lemma: one step of the prompt loop on a clean entry. -/
theorem flagPrompts_cons_clean (maxLen : Nat) (k : Str) (pd : PromptData)
    (rest : List (Str × PromptData)) (t : Nat) (bt : List (Str × Nat))
    (h : computeFlags maxLen pd = []) :
    flagPrompts maxLen ((k, pd) :: rest) t bt
      = ((k, { pd with quality_flags := none }) :: (flagPrompts maxLen rest t bt).1,
         (flagPrompts maxLen rest t bt).2) := by
  simp only [flagPrompts]
  split
  · rfl
  · next hne => exact absurd h hne

/-- Equation lemma: one step of the prompt loop on a flagged entry. -/
theorem flagPrompts_cons_flagged (maxLen : Nat) (k : Str) (pd : PromptData)
    (rest : List (Str × PromptData)) (t : Nat) (bt : List (Str × Nat))
    (h : ¬ computeFlags maxLen pd = []) :
    flagPrompts maxLen ((k, pd) :: rest) t bt
      = ((k, { pd with quality_flags := some (computeFlags maxLen pd) })
           :: (flagPrompts maxLen rest (t + 1)
                ((computeFlags maxLen pd).foldl dictBump bt)).1,
         (flagPrompts maxLen rest (t + 1)
            ((computeFlags maxLen pd).foldl dictBump bt)).2) := by
  simp only [flagPrompts]
  split
  · next he => exact absurd he h
  · rfl

/-- Running the prompt loop on an already-flagged prompt list changes
nothing: same record, same statistics. -/
theorem flagPrompts_map (maxLen : Nat) :
    ∀ (l : List (Str × PromptData)) (t : Nat) (bt : List (Str × Nat)),
      flagPrompts maxLen (l.map (flagEntry maxLen)) t bt = flagPrompts maxLen l t bt := by
  intro l
  induction l with
  | nil => intro t bt; rfl
  | cons kp rest ih =>
    intro t bt
    obtain ⟨k, pd⟩ := kp
    rw [List.map_cons]
    by_cases h : computeFlags maxLen pd = []
    · rw [flagEntry_clean maxLen k pd h]
      rw [flagPrompts_cons_clean maxLen k _ (rest.map (flagEntry maxLen)) t bt
        (by rw [computeFlags_set_qf]; exact h)]
      rw [flagPrompts_cons_clean maxLen k pd rest t bt h]
      rw [ih]
    · rw [flagEntry_flagged maxLen k pd h]
      rw [flagPrompts_cons_flagged maxLen k _ (rest.map (flagEntry maxLen)) t bt
        (by rw [computeFlags_set_qf]; exact h)]
      simp only [computeFlags_set_qf]
      rw [ih]
      rw [flagPrompts_cons_flagged maxLen k pd rest t bt h]

/-- Running the annotation loop on an already-flagged record changes nothing. -/
theorem flagAnns_map (maxLen : Nat) :
    ∀ (l : List ModelAnn) (t : Nat) (bt : List (Str × Nat)),
      flagAnns maxLen
          (l.map (fun a => { a with prompts := a.prompts.map (flagEntry maxLen) })) t bt
        = flagAnns maxLen l t bt := by
  intro l
  induction l with
  | nil => intro t bt; rfl
  | cons a rest ih =>
    intro t bt
    simp only [List.map_cons, flagAnns, flagPrompts_map, ih]

/-- C6. `flag_problematic_annotations` is idempotent: applying it to its own
output record yields the same record, the same `total_flagged` and the same
`flagged_by_type` counts — flags are recomputed from the response and error
fields, never accumulated from the previous pass. -/
theorem flag_problematic_annotations_idempotent (maxLen : Nat) (f : AnnFile) :
    flag_problematic_annotations maxLen (flag_problematic_annotations maxLen f).1
      = flag_problematic_annotations maxLen f := by
  unfold flag_problematic_annotations
  simp only [flagAnns_fst, flagAnns_map]

/-- C3. If an entry carries a non-empty stale `quality_flags` list but its
current content yields no quality issues, the flag pass produces a record in
which that entry's `quality_flags` field is removed (set back to absent);
the other fields of the entry are untouched.  (The source persists this
record to disk whenever some entry of the file got flagged; in either case
the in-memory record shown here is the output of the operation.) -/
theorem flag_clears_stale_flags (maxLen : Nat) (f : AnnFile)
    (a : ModelAnn) (k : Str) (pd : PromptData) (fs : List Str)
    (ha : a ∈ f.annotations) (hk : (k, pd) ∈ a.prompts)
    (_hstale : pd.quality_flags = some fs) (_hne : fs ≠ [])
    (hclean : computeFlags maxLen pd = []) :
    ∃ a2, a2 ∈ (flag_problematic_annotations maxLen f).1.annotations ∧
      a2.model = a.model ∧ (k, { pd with quality_flags := none }) ∈ a2.prompts := by
  refine ⟨{ a with prompts := a.prompts.map (flagEntry maxLen) }, ?_, rfl, ?_⟩
  · show _ ∈ (flag_problematic_annotations maxLen f).1.annotations
    unfold flag_problematic_annotations
    simp only [flagAnns_fst]
    exact List.mem_map_of_mem _ ha
  · have : flagEntry maxLen (k, pd) = (k, { pd with quality_flags := none }) := by
      simp only [flagEntry, hclean, if_true, if_pos]
    rw [← this]
    exact List.mem_map_of_mem _ hk

/-- A concrete stale entry for the C3 witness: flagged on a previous pass,
but currently clean. -/
def pdStale : PromptData :=
  { response := chars "A fine, short response.",
    quality_flags := some [chars "too_long"] }

/-- A one-annotation file holding the stale entry. -/
def fileStale : AnnFile :=
  { annotations := [{ model := chars "qwen2.5vl:7b",
                      prompts := [(chars "general_description", pdStale)] }] }

/-- Witness for C3: running the flag pass on `fileStale` removes the stale
`quality_flags` from its only entry. -/
theorem flag_clears_stale_flags_witness :
    ∃ a2, a2 ∈ (flag_problematic_annotations 10000 fileStale).1.annotations ∧
      a2.model = (chars "qwen2.5vl:7b")
      ∧ (chars "general_description", { pdStale with quality_flags := none })
          ∈ a2.prompts := by
  have h := flag_clears_stale_flags 10000 fileStale
    { model := chars "qwen2.5vl:7b", prompts := [(chars "general_description", pdStale)] }
    (chars "general_description") pdStale [chars "too_long"]
    (by simp [fileStale]) (by simp [pdStale]) (by simp [pdStale]) (by simp) (by decide)
  exact h


/-- In an association list with distinct keys (a Python dict), a key
determines its value. -/
theorem assoc_unique {α : Type} :
    ∀ (l : List (Str × α)), (l.map Prod.fst).Nodup →
      ∀ (k : Str) (v w : α), (k, v) ∈ l → (k, w) ∈ l → v = w := by
  intro l
  induction l with
  | nil => intro _ k v w hv _; cases hv
  | cons kp rest ih =>
    intro hnd k v w hv hw
    rw [List.map_cons, List.nodup_cons] at hnd
    rcases List.mem_cons.mp hv with hv1 | hv1 <;> rcases List.mem_cons.mp hw with hw1 | hw1
    · rw [← hv1] at hw1
      injection hw1 with h1 h2
      exact h2.symm
    · exfalso
      apply hnd.1
      have hx := List.mem_map_of_mem Prod.fst hw1
      rw [← hv1]
      exact hx
    · exfalso
      apply hnd.1
      have hx := List.mem_map_of_mem Prod.fst hv1
      rw [← hw1]
      exact hx
    · exact ih hnd.2 k v w hv1 hw1

/-- Unfolding `countViolation` at a found key. -/
theorem countViolation_eq (attrs : List (Str × JValue)) (v : JValue)
    (h : lookupStr attrs (chars "count") = some v) :
    countViolation attrs = !pyIsInt v := by
  unfold countViolation
  rw [h]

/-- Inversion: a `countNotInt` violation inside `itemErrors` pins down the
category name, the item name, and a non-integer `count` attribute. -/
theorem countNotInt_mem_itemErrors (cat : Str) (it : Str × JValue) (c i : Str)
    (h : SchemaErr.countNotInt c i ∈ itemErrors cat it) :
    cat = c ∧ it.1 = i ∧ ∃ attrs, it.2 = JValue.jobj attrs ∧ countViolation attrs = true := by
  obtain ⟨iname, av⟩ := it
  cases av with
  | jobj attrs =>
    simp only [itemErrors] at h
    rcases List.mem_append.mp h with h12 | h3
    · rcases List.mem_append.mp h12 with h1 | h2
      · by_cases hx :
          (attrs.map Prod.fst).filter (fun k => decide (¬ k ∈ validAttributes)) = []
        · rw [if_pos hx] at h1; cases h1
        · rw [if_neg hx] at h1; simp at h1
      · by_cases hcv : countViolation attrs = true
        · rw [if_pos hcv] at h2
          simp only [List.mem_singleton, SchemaErr.countNotInt.injEq] at h2
          exact ⟨h2.1.symm, h2.2.symm, attrs, rfl, hcv⟩
        · rw [if_neg hcv] at h2; cases h2
    · by_cases hcl : colorViolation attrs = true
      · rw [if_pos hcl] at h3; simp at h3
      · rw [if_neg hcl] at h3; cases h3
  | jnull => simp [itemErrors] at h
  | jbool b => simp [itemErrors] at h
  | jint n => simp [itemErrors] at h
  | jfloat => simp [itemErrors] at h
  | jstr s => simp [itemErrors] at h
  | jarr xs => simp [itemErrors] at h

/-- Inversion: a `countNotInt` violation inside `catErrors` pins down the
whole path down to the offending attribute value. -/
theorem countNotInt_mem_catErrors (kv : Str × JValue) (c i : Str)
    (h : SchemaErr.countNotInt c i ∈ catErrors kv) :
    kv.1 = c ∧ ∃ items attrs, kv.2 = JValue.jobj items
      ∧ (i, JValue.jobj attrs) ∈ items ∧ countViolation attrs = true := by
  obtain ⟨cat, cv⟩ := kv
  cases cv with
  | jobj items =>
    simp only [catErrors, List.mem_flatten, List.mem_map] at h
    obtain ⟨l, ⟨it, hit, hl⟩, hmem⟩ := h
    rw [← hl] at hmem
    obtain ⟨hcat, hname, attrs, hav, hviol⟩ := countNotInt_mem_itemErrors cat it c i hmem
    refine ⟨hcat, items, attrs, rfl, ?_, hviol⟩
    obtain ⟨iname, av⟩ := it
    simp only at hname hav
    rw [hname, hav] at hit
    exact hit
  | jnull => simp [catErrors] at h
  | jbool b => simp [catErrors] at h
  | jint n => simp [catErrors] at h
  | jfloat => simp [catErrors] at h
  | jstr s => simp [catErrors] at h
  | jarr xs => simp [catErrors] at h

/-- C5 (amended). For an item with a `count` attribute, the validator reports
the "should be integer" violation for that item exactly when the count value
is neither an int nor a bool: Python `isinstance(count, int)` accepts
booleans, so a float or a string produces the violation but `True`/`False`
do not. -/
theorem count_violation_iff_not_int (kvs : List (Str × JValue)) (c : Str)
    (items : List (Str × JValue)) (iname : Str) (attrs : List (Str × JValue)) (v : JValue)
    (hnd1 : (kvs.map Prod.fst).Nodup) (hc : (c, JValue.jobj items) ∈ kvs)
    (hnd2 : (items.map Prod.fst).Nodup) (hit : (iname, JValue.jobj attrs) ∈ items)
    (hcount : lookupStr attrs (chars "count") = some v) :
    SchemaErr.countNotInt c iname ∈ validate_structured_inventory_schema (.jobj kvs)
      ↔ pyIsInt v = false := by
  constructor
  · intro h
    simp only [validate_structured_inventory_schema] at h
    rcases List.mem_append.mp h with h1 | h2
    · by_cases hx : (kvs.map Prod.fst).filter (fun k => decide (¬ k ∈ validCategories)) = []
      · rw [if_pos hx] at h1; cases h1
      · rw [if_neg hx] at h1; simp at h1
    · rw [List.mem_flatten] at h2
      obtain ⟨l, hl, hmem⟩ := h2
      rw [List.mem_map] at hl
      obtain ⟨kv, hkv, hlkv⟩ := hl
      rw [← hlkv] at hmem
      obtain ⟨hcat, items2, attrs2, hv2, hit2, hviol⟩ :=
        countNotInt_mem_catErrors kv c iname hmem
      obtain ⟨c2, cv2⟩ := kv
      simp only at hcat hv2
      rw [hcat, hv2] at hkv
      have hitems : items2 = items :=
        JValue.jobj.inj (assoc_unique kvs hnd1 c _ _ hkv hc)
      rw [hitems] at hit2
      have hattrs : attrs2 = attrs :=
        JValue.jobj.inj (assoc_unique items hnd2 iname _ _ hit2 hit)
      rw [hattrs, countViolation_eq attrs v hcount] at hviol
      simp only [Bool.not_eq_true'] at hviol
      exact hviol
  · intro hv
    simp only [validate_structured_inventory_schema]
    apply List.mem_append_right
    rw [List.mem_flatten]
    refine ⟨catErrors (c, JValue.jobj items), List.mem_map_of_mem catErrors hc, ?_⟩
    simp only [catErrors, List.mem_flatten]
    refine ⟨itemErrors c (iname, JValue.jobj attrs),
      List.mem_map_of_mem (itemErrors c) hit, ?_⟩
    simp only [itemErrors]
    apply List.mem_append_left
    apply List.mem_append_right
    rw [if_pos (by rw [countViolation_eq attrs v hcount, hv]; rfl)]
    exact List.mem_singleton_self _

/-- Witness for the amended C5 theorem: the spec example
`{"human": {"person": {"count": "two"}}}` yields the count violation
(a string count is neither int nor bool). -/
theorem count_violation_iff_not_int_witness :
    SchemaErr.countNotInt (chars "human") (chars "person")
      ∈ validate_structured_inventory_schema
          (.jobj [(chars "human", .jobj [(chars "person",
            .jobj [(chars "count", .jstr (chars "two"))])])]) :=
  (count_violation_iff_not_int
    [(chars "human", .jobj [(chars "person", .jobj [(chars "count", .jstr (chars "two"))])])]
    (chars "human")
    [(chars "person", .jobj [(chars "count", .jstr (chars "two"))])]
    (chars "person")
    [(chars "count", .jstr (chars "two"))]
    (.jstr (chars "two"))
    (by decide) (List.Mem.head _) (by decide) (List.Mem.head _) rfl).mpr rfl

/-- Counterexample to C5 as stated: a boolean used as `count` does NOT
produce the "should be integer" violation — `isinstance(True, int)` is true
in Python, so the validator accepts `{"human": {"person": {"count": true}}}`
with no errors at all. -/
theorem bool_count_passes_validator :
    validate_structured_inventory_schema
      (.jobj [(chars "human", .jobj [(chars "person",
        .jobj [(chars "count", .jbool true)])])]) = [] := by decide

/-- C10. The validator descends into top-level categories whose names are
outside the valid set: for any entry `(c, v)` of the input mapping with an
invalid name `c`, the combined invalid-categories error is reported with `c`
listed in it, AND every level-2/level-3 violation produced by the category
body `v` (items must be dicts, attribute-key closure, count and color
typing) still appears in the output — an invalid category name never
suppresses deeper errors inside it. -/
theorem validator_descends_into_invalid_categories (kvs : List (Str × JValue))
    (c : Str) (v : JValue) (hmem : (c, v) ∈ kvs) (hinv : ¬ c ∈ validCategories) :
    (∃ inv, SchemaErr.invalidCategories inv
        ∈ validate_structured_inventory_schema (.jobj kvs) ∧ c ∈ inv)
    ∧ ∀ e ∈ catErrors (c, v), e ∈ validate_structured_inventory_schema (.jobj kvs) := by
  simp only [validate_structured_inventory_schema]
  have hcinv : c ∈ (kvs.map Prod.fst).filter (fun k => decide (¬ k ∈ validCategories)) := by
    rw [List.mem_filter]
    exact ⟨List.mem_map_of_mem Prod.fst hmem, by simpa using hinv⟩
  have hinvne : ¬ (kvs.map Prod.fst).filter (fun k => decide (¬ k ∈ validCategories)) = [] := by
    intro he
    rw [he] at hcinv
    cases hcinv
  constructor
  · refine ⟨(kvs.map Prod.fst).filter (fun k => decide (¬ k ∈ validCategories)), ?_, hcinv⟩
    rw [if_neg hinvne]
    exact List.mem_append_left _ (List.mem_singleton_self _)
  · intro e he
    apply List.mem_append_right
    rw [List.mem_flatten]
    exact ⟨catErrors (c, v), List.mem_map_of_mem catErrors hmem, he⟩

/-- Witness for C10: inside the invalid category `"alien"`, a non-integer
count on item `"blob"` is still reported, alongside the invalid-categories
error listing `"alien"`. -/
theorem validator_descends_witness :
    (∃ inv, SchemaErr.invalidCategories inv
        ∈ validate_structured_inventory_schema
            (.jobj [(chars "alien", .jobj [(chars "blob",
              .jobj [(chars "count", .jstr (chars "many"))])])])
        ∧ (chars "alien") ∈ inv)
    ∧ SchemaErr.countNotInt (chars "alien") (chars "blob")
        ∈ validate_structured_inventory_schema
            (.jobj [(chars "alien", .jobj [(chars "blob",
              .jobj [(chars "count", .jstr (chars "many"))])])]) := by
  have h := validator_descends_into_invalid_categories
    [(chars "alien", .jobj [(chars "blob", .jobj [(chars "count", .jstr (chars "many"))])])]
    (chars "alien")
    (.jobj [(chars "blob", .jobj [(chars "count", .jstr (chars "many"))])])
    (List.Mem.head _) (by decide)
  exact ⟨h.1, h.2 _ (by decide)⟩

/-- With distinct keys, a key collected for removal identifies exactly the
entries satisfying the removal predicate. -/
theorem mem_removal_keys (ft : Option (List Str)) (l : List (Str × PromptData))
    (hnd : (l.map Prod.fst).Nodup) (kp : Str × PromptData) (hkp : kp ∈ l) :
    kp.1 ∈ (l.filter (fun x => shouldRemove ft x.2)).map Prod.fst
      ↔ shouldRemove ft kp.2 = true := by
  constructor
  · intro h
    rw [List.mem_map] at h
    obtain ⟨x, hx, hx1⟩ := h
    rw [List.mem_filter] at hx
    have h1 : (kp.1, x.2) ∈ l := by
      rw [← hx1]
      exact hx.1
    have h2 : (kp.1, kp.2) ∈ l := hkp
    have hx2 : x.2 = kp.2 := assoc_unique l hnd kp.1 x.2 kp.2 h1 h2
    rw [← hx2]
    exact hx.2
  · intro h
    rw [List.mem_map]
    exact ⟨kp, List.mem_filter.mpr ⟨hkp, h⟩, rfl⟩

/-- The per-record count of entries the removal predicate matches (the
claim-side description of `total_removed` per file). -/
def flaggedEntryCount (ft : Option (List Str)) (f : AnnFile) : Nat :=
  (f.annotations.map (fun a => a.prompts.countP (fun kp => shouldRemove ft kp.2))).sum

/-- With distinct prompt keys, one annotation pass of the removal operation
keeps exactly the entries the predicate does not match and counts the rest. -/
theorem removeAnn_eq (ft : Option (List Str)) (a : ModelAnn)
    (hnd : (a.prompts.map Prod.fst).Nodup) :
    removeAnn ft a
      = ({ a with prompts := a.prompts.filter (fun kp => !shouldRemove ft kp.2) },
         a.prompts.countP (fun kp => shouldRemove ft kp.2)) := by
  have hfe : a.prompts.filter
        (fun kp => decide (¬ kp.1 ∈ (a.prompts.filter (fun x => shouldRemove ft x.2)).map Prod.fst))
      = a.prompts.filter (fun kp => !shouldRemove ft kp.2) := by
    apply List.filter_congr
    intro kp hkp
    have hiff := mem_removal_keys ft a.prompts hnd kp hkp
    cases hsr : shouldRemove ft kp.2 with
    | false =>
      rw [hsr] at hiff
      simp only [Bool.not_false, decide_eq_true_eq]
      intro hmem
      exact Bool.false_ne_true (hiff.mp hmem)
    | true =>
      rw [hsr] at hiff
      simp only [Bool.not_true, decide_eq_false_iff_not, not_not]
      exact hiff.mpr rfl
  have hlen : ((a.prompts.filter (fun x => shouldRemove ft x.2)).map Prod.fst).length
      = a.prompts.countP (fun kp => shouldRemove ft kp.2) := by
    rw [List.length_map, List.countP_eq_length_filter]
  simp only [removeAnn]
  rw [hfe, hlen]

/-- The annotation loop of removal, characterised. -/
theorem removeAnns_eq (ft : Option (List Str)) :
    ∀ (l : List ModelAnn), (∀ a ∈ l, (a.prompts.map Prod.fst).Nodup) →
      removeAnns ft l
        = (l.map (fun a =>
             { a with prompts := a.prompts.filter (fun kp => !shouldRemove ft kp.2) }),
           (l.map (fun a => a.prompts.countP (fun kp => shouldRemove ft kp.2))).sum) := by
  intro l
  induction l with
  | nil => intro _; rfl
  | cons a rest ih =>
    intro hnd
    simp only [removeAnns]
    rw [removeAnn_eq ft a (hnd a (List.mem_cons_self a rest)),
      ih (fun b hb => hnd b (List.mem_cons_of_mem a hb)),
      List.map_cons, List.map_cons, List.sum_cons]

/-- One file of the removal operation, characterised. -/
theorem removeFile_eq (ft : Option (List Str)) (f : AnnFile)
    (hnd : ∀ a ∈ f.annotations, (a.prompts.map Prod.fst).Nodup) :
    removeFile ft f
      = ({ f with annotations := f.annotations.map (fun a =>
            { a with prompts := a.prompts.filter (fun kp => !shouldRemove ft kp.2) }) },
         flaggedEntryCount ft f) := by
  simp only [removeFile]
  rw [removeAnns_eq ft f.annotations hnd]
  rfl

/-- C7. `remove_flagged_annotations` deletes exactly the prompt entries whose
`quality_flags` list is non-empty and (when a `flag_types` filter is given)
shares a flag with the filter: every record in the output equals its input
with exactly those entries filtered out of each prompt mapping — leaving the
model name, the other prompt entries, and every other field of each record
unchanged — and the returned counts are the number of entries deleted and the
number of files from which at least one entry was deleted.  (Hypothesis: each
prompt mapping has distinct keys, the Python dict invariant.) -/
theorem remove_flagged_annotations_exact (ft : Option (List Str)) :
    ∀ (files : List AnnFile),
      (∀ f ∈ files, ∀ a ∈ f.annotations, (a.prompts.map Prod.fst).Nodup) →
      remove_flagged_annotations ft files
        = (files.map (fun f => { f with annotations := f.annotations.map (fun a =>
              { a with prompts := a.prompts.filter (fun kp => !shouldRemove ft kp.2) }) }),
           (files.map (flaggedEntryCount ft)).sum,
           files.countP (fun f => decide (0 < flaggedEntryCount ft f))) := by
  intro files
  induction files with
  | nil => intro _; rfl
  | cons f rest ih =>
    intro hnd
    simp only [remove_flagged_annotations]
    rw [removeFile_eq ft f (hnd f (List.mem_cons_self f rest)),
      ih (fun g hg => hnd g (List.mem_cons_of_mem f hg)),
      List.map_cons, List.map_cons, List.sum_cons, List.countP_cons]
    dsimp only
    refine congrArg _ (congrArg _ ?_)
    by_cases hpos : 0 < flaggedEntryCount ft f
    · rw [if_pos hpos, if_pos (by simpa using hpos)]
      omega
    · rw [if_neg hpos, if_neg (by simpa using hpos)]
      omega

/-- The model annotation for the C7 witness: one flagged entry (stale
`too_long`) and one clean entry. -/
def annRem : ModelAnn :=
  { model := chars "gemma3:4b",
    prompts := [
      (chars "general_description",
        { response := chars "way too long", quality_flags := some [chars "too_long"] }),
      (chars "mood_emotions", { response := chars "fine" })] }

/-- A record for the C7 witness holding `annRem`. -/
def fileRem : AnnFile := { annotations := [annRem] }

/-- Witness for C7 on `fileRem` with no flag-type filter. -/
theorem remove_flagged_annotations_exact_witness :
    remove_flagged_annotations none [fileRem]
      = ([fileRem].map (fun f => { f with annotations := f.annotations.map (fun a =>
            { a with prompts := a.prompts.filter (fun kp => !shouldRemove none kp.2) }) }),
         ([fileRem].map (flaggedEntryCount none)).sum,
         [fileRem].countP (fun f => decide (0 < flaggedEntryCount none f))) :=
  remove_flagged_annotations_exact none [fileRem] (by
    intro f hf a ha
    rw [List.mem_singleton.mp hf] at ha
    rw [show a = annRem from List.mem_singleton.mp ha]
    decide)

/-- Looking up the key just assigned returns the assigned value. -/
theorem lookup_dictSet_same {α : Type} :
    ∀ (d : List (Str × α)) (k : Str) (v : α), lookupStr (dictSet d k v) k = some v := by
  intro d
  induction d with
  | nil => intro k v; simp [dictSet, lookupStr]
  | cons kp rest ih =>
    intro k v
    obtain ⟨k2, v2⟩ := kp
    by_cases h : k2 = k
    · simp [dictSet, lookupStr, h]
    · simp [dictSet, lookupStr, h, ih]

/-- Assigning one key leaves lookups of other keys unchanged. -/
theorem lookup_dictSet_other {α : Type} :
    ∀ (d : List (Str × α)) (k : Str) (v : α) (k2 : Str), k2 ≠ k →
      lookupStr (dictSet d k v) k2 = lookupStr d k2 := by
  intro d
  induction d with
  | nil =>
    intro k v k2 hne
    simp only [dictSet, lookupStr]
    rw [if_neg (Ne.symm hne)]
  | cons kp rest ih =>
    intro k v k2 hne
    obtain ⟨k3, v3⟩ := kp
    by_cases h : k3 = k
    · simp only [dictSet, if_pos h, lookupStr]
      have hne3 : ¬ k3 = k2 := by rw [h]; exact Ne.symm hne
      rw [if_neg hne3, if_neg hne3]
    · simp only [dictSet, if_neg h, lookupStr]
      by_cases h32 : k3 = k2
      · rw [if_pos h32, if_pos h32]
      · rw [if_neg h32, if_neg h32, ih _ _ _ hne]

/-- A key is absent from an association list exactly when lookup fails. -/
theorem lookupStr_eq_none {α : Type} :
    ∀ (d : List (Str × α)) (k : Str),
      lookupStr d k = none ↔ ¬ k ∈ d.map Prod.fst := by
  intro d
  induction d with
  | nil => intro k; simp [lookupStr]
  | cons kp rest ih =>
    intro k
    obtain ⟨k2, v2⟩ := kp
    simp only [lookupStr, List.map_cons, List.mem_cons]
    by_cases h : k2 = k
    · rw [if_pos h]
      exact iff_of_false (fun hc => Option.noConfusion hc) (fun hc => hc (Or.inl h.symm))
    · rw [if_neg h, ih]
      constructor
      · intro hn hc
        rcases hc with hc | hc
        · exact h hc.symm
        · exact hn hc
      · intro hn hc
        exact hn (Or.inr hc)

/-- Membership is preserved by sorted insertion. -/
theorem mem_insertStr (w x : Str) :
    ∀ (l : List Str), x ∈ insertStr w l ↔ x = w ∨ x ∈ l := by
  intro l
  induction l with
  | nil => simp [insertStr]
  | cons y ys ih =>
    by_cases h : strLe w y = true
    · simp [insertStr, h, List.mem_cons]
    · simp only [insertStr, h, if_false, Bool.false_eq_true, List.mem_cons, ih]
      tauto

/-- Membership is preserved by sorting. -/
theorem mem_sortStr (x : Str) : ∀ (l : List Str), x ∈ sortStr l ↔ x ∈ l := by
  intro l
  induction l with
  | nil => simp [sortStr]
  | cons y ys ih => simp [sortStr, mem_insertStr, ih]

/-- The `find_missing_prompts` fold never touches keys outside the scanned
model names. -/
theorem fm_fold_frame :
    ∀ (anns : List ModelAnn) (acc : List (Str × List Str)) (k : Str),
      ¬ k ∈ anns.map ModelAnn.model →
      lookupStr (anns.foldl fmStep acc) k = lookupStr acc k := by
  intro anns
  induction anns with
  | nil => intro acc k _; rfl
  | cons a rest ih =>
    intro acc k hk
    rw [List.map_cons, List.mem_cons] at hk
    push_neg at hk
    rw [List.foldl_cons, ih (fmStep acc a) k hk.2]
    unfold fmStep
    split
    · rfl
    · exact lookup_dictSet_other acc a.model (missingOf a) k hk.1

/-- Under distinct model names, the `find_missing_prompts` fold maps each
scanned annotation to its missing list (or leaves it absent when complete). -/
theorem fm_fold_lookup :
    ∀ (anns : List ModelAnn) (acc : List (Str × List Str)),
      (anns.map ModelAnn.model).Nodup →
      ∀ a ∈ anns,
        lookupStr (anns.foldl fmStep acc) a.model
          = if missingOf a = [] then lookupStr acc a.model else some (missingOf a) := by
  intro anns
  induction anns with
  | nil => intro acc _ a ha; cases ha
  | cons b rest ih =>
    intro acc hnd a ha
    rw [List.map_cons, List.nodup_cons] at hnd
    rw [List.foldl_cons]
    rcases List.mem_cons.mp ha with hab | har
    · rw [hab]
      rw [fm_fold_frame rest (fmStep acc b) b.model hnd.1]
      unfold fmStep
      split
      · rfl
      · exact lookup_dictSet_same acc b.model (missingOf b)
    · have hne : a.model ≠ b.model := by
        intro he
        apply hnd.1
        rw [← he]
        exact List.mem_map_of_mem ModelAnn.model har
      rw [ih (fmStep acc b) hnd.2 a har]
      by_cases hm : missingOf a = []
      · rw [if_pos hm, if_pos hm]
        unfold fmStep
        split
        · rfl
        · exact lookup_dictSet_other acc b.model (missingOf b) a.model hne
      · rw [if_neg hm, if_neg hm]

/-- C8. For a file whose model names are distinct (the data-model invariant),
missing-prompt detection returns per model exactly the set difference between
the fixed five-prompt enumeration and the keys present in that model's prompt
mapping (as a sorted list), and a model with no missing prompt does not
appear in the result at all. -/
theorem find_missing_prompts_exact (f : AnnFile)
    (hnd : (f.annotations.map ModelAnn.model).Nodup)
    (a : ModelAnn) (ha : a ∈ f.annotations) :
    lookupStr (find_missing_prompts f) a.model
        = (if missingOf a = [] then none else some (missingOf a))
    ∧ (∀ p, p ∈ missingOf a ↔ (p ∈ expectedPrompts ∧ ¬ p ∈ a.prompts.map Prod.fst))
    ∧ (missingOf a = [] → ¬ a.model ∈ (find_missing_prompts f).map Prod.fst) := by
  have hlook := fm_fold_lookup f.annotations [] hnd a ha
  refine ⟨?_, ?_, ?_⟩
  · unfold find_missing_prompts
    rw [hlook]
    split <;> rfl
  · intro p
    unfold missingOf
    rw [mem_sortStr, List.mem_filter]
    simp only [decide_eq_true_eq]
  · intro hm
    rw [← lookupStr_eq_none]
    unfold find_missing_prompts
    rw [hlook, if_pos hm]
    rfl

/-- A complete model annotation (all five prompts present) for the C8 witness. -/
def annFull : ModelAnn :=
  { model := chars "qwen2.5vl:32b",
    prompts := [
      (chars "general_description", {}), (chars "foreground_background", {}),
      (chars "entities_interactions", {}), (chars "mood_emotions", {}),
      (chars "structured_inventory", {})] }

/-- A partial model annotation (two prompts absent) for the C8/C9 witnesses. -/
def annPartial : ModelAnn :=
  { model := chars "gemma3:12b",
    prompts := [
      (chars "general_description", {}), (chars "foreground_background", {}),
      (chars "structured_inventory", {})] }

/-- A two-model record for the C8 witness. -/
def fileMixed : AnnFile := { annotations := [annFull, annPartial] }

/-- Witness for C8 on `fileMixed` at the partial model. -/
theorem find_missing_prompts_exact_witness :
    lookupStr (find_missing_prompts fileMixed) annPartial.model
        = (if missingOf annPartial = [] then none else some (missingOf annPartial))
    ∧ (∀ p, p ∈ missingOf annPartial
          ↔ (p ∈ expectedPrompts ∧ ¬ p ∈ annPartial.prompts.map Prod.fst))
    ∧ (missingOf annPartial = []
        → ¬ annPartial.model ∈ (find_missing_prompts fileMixed).map Prod.fst) :=
  find_missing_prompts_exact fileMixed (by decide) annPartial
    (List.Mem.tail _ (List.Mem.head _))

/-- The regeneration loop leaves prompt keys outside the missing list
untouched. -/
theorem processMissing_frame (svc : Str → Str → Except Str GenOut)
    (pById : Str → PromptSpec) (model : Str) :
    ∀ (miss : List Str) (d : List (Str × PromptData)) (k : Str), ¬ k ∈ miss →
      lookupStr (processMissing svc pById model miss d).1 k = lookupStr d k := by
  intro miss
  induction miss with
  | nil => intro d k _; rfl
  | cons pid rest ih =>
    intro d k hk
    rw [List.mem_cons] at hk
    push_neg at hk
    simp only [processMissing]
    rw [ih _ k hk.2]
    exact lookup_dictSet_other d pid (entryFor svc pById model pid) k hk.1

/-- Every prompt id of the missing list ends up mapped to the entry its own
service call produces — also when calls for other prompts fail. -/
theorem processMissing_lookup (svc : Str → Str → Except Str GenOut)
    (pById : Str → PromptSpec) (model : Str) :
    ∀ (miss : List Str) (d : List (Str × PromptData)) (pid : Str), pid ∈ miss →
      lookupStr (processMissing svc pById model miss d).1 pid
        = some (entryFor svc pById model pid) := by
  intro miss
  induction miss with
  | nil => intro d pid hpid; cases hpid
  | cons q rest ih =>
    intro d pid hpid
    simp only [processMissing]
    by_cases hr : pid ∈ rest
    · exact ih _ pid hr
    · rcases List.mem_cons.mp hpid with hq | hq
      · rw [processMissing_frame svc pById model rest _ pid hr, hq]
        exact lookup_dictSet_same d q (entryFor svc pById model q)
      · exact absurd hq hr

/-- The record component of the re-annotation loop: each annotation is
processed independently, according to the missing map. -/
theorem reannAnns_fst (svc : Str → Str → Except Str GenOut)
    (pById : Str → PromptSpec) (mbm : List (Str × List Str)) :
    ∀ (anns : List ModelAnn),
      (reannAnns svc pById mbm anns).1 = anns.map (fun a =>
        match lookupStr mbm a.model with
        | none => a
        | some miss =>
          { a with prompts := (processMissing svc pById a.model miss a.prompts).1 }) := by
  intro anns
  induction anns with
  | nil => rfl
  | cons a rest ih =>
    cases hl : lookupStr mbm a.model with
    | none => simp only [reannAnns, hl, List.map_cons, ih]
    | some miss => simp only [reannAnns, hl, List.map_cons, ih]

/-- C9. If the regeneration call for one missing prompt of one model fails
with message `e`, `reannotate_missing` still produces a record in which that
model's annotation contains, under that prompt id, exactly the error entry —
the failure description in `error`, the empty response, the catalog prompt
text and format, and null `response_data`, `token_metrics` and
`performance_metrics`, with no `quality_flags` key — while every other
missing prompt of that model also received the entry of its own call (the
failure aborts nothing) and the entries already present are unchanged. -/
theorem reannotate_missing_error_entry (svc : Str → Str → Except Str GenOut)
    (pById : Str → PromptSpec) (f : AnnFile) (a : ModelAnn) (pid : Str) (e : Str)
    (hnd : (f.annotations.map ModelAnn.model).Nodup)
    (ha : a ∈ f.annotations) (hpid : pid ∈ missingOf a)
    (hfail : svc a.model pid = .error e) :
    ∃ a2, a2 ∈ (reannotate_missing svc pById f).1.annotations ∧ a2.model = a.model ∧
      lookupStr a2.prompts pid
        = some { prompt_text := (pById pid).text, response := [],
                 response_format := (pById pid).expected_format, response_data := none,
                 error := some e, token_metrics := none, performance_metrics := none,
                 quality_flags := none }
      ∧ (∀ q ∈ missingOf a, (lookupStr a2.prompts q).isSome = true)
      ∧ (∀ k, ¬ k ∈ missingOf a → lookupStr a2.prompts k = lookupStr a.prompts k) := by
  have hmbm : lookupStr (find_missing_prompts f) a.model = some (missingOf a) := by
    have h1 := fm_fold_lookup f.annotations [] hnd a ha
    rw [if_neg (List.ne_nil_of_mem hpid)] at h1
    exact h1
  refine ⟨{ a with prompts :=
      (processMissing svc pById a.model (missingOf a) a.prompts).1 }, ?_, rfl, ?_, ?_, ?_⟩
  · show _ ∈ (reannotate_missing svc pById f).1.annotations
    simp only [reannotate_missing, reannAnns_fst]
    rw [List.mem_map]
    refine ⟨a, ha, ?_⟩
    show (match lookupStr (find_missing_prompts f) a.model with
      | none => a
      | some miss =>
        { a with prompts := (processMissing svc pById a.model miss a.prompts).1 })
      = { a with prompts := (processMissing svc pById a.model (missingOf a) a.prompts).1 }
    rw [hmbm]
  · rw [processMissing_lookup svc pById a.model (missingOf a) a.prompts pid hpid]
    unfold entryFor
    rw [hfail]
    rfl
  · intro q hq
    rw [processMissing_lookup svc pById a.model (missingOf a) a.prompts q hq]
    rfl
  · intro k hk
    exact processMissing_frame svc pById a.model (missingOf a) a.prompts k hk

/-- The external service stub for the C9 witness: every call fails. -/
def svcFail : Str → Str → Except Str GenOut :=
  fun _ _ => .error (chars "connection refused")

/-- The prompt catalog stub for the C9 witness. -/
def pByIdW : Str → PromptSpec :=
  fun pid => { id := pid, text := chars "Describe the image.", expected_format := chars "text" }

/-- The record for the C9 witness, holding only the partial annotation. -/
def filePartial : AnnFile := { annotations := [annPartial] }

/-- Witness for C9: on `filePartial` with a failing service, the missing
prompt `entities_interactions` is written back as an error entry and the
other missing prompt is processed too. -/
theorem reannotate_missing_error_entry_witness :
    ∃ a2, a2 ∈ (reannotate_missing svcFail pByIdW filePartial).1.annotations
      ∧ a2.model = annPartial.model ∧
      lookupStr a2.prompts (chars "entities_interactions")
        = some { prompt_text := (pByIdW (chars "entities_interactions")).text,
                 response := [],
                 response_format := (pByIdW (chars "entities_interactions")).expected_format,
                 response_data := none,
                 error := some (chars "connection refused"), token_metrics := none,
                 performance_metrics := none, quality_flags := none }
      ∧ (∀ q ∈ missingOf annPartial, (lookupStr a2.prompts q).isSome = true)
      ∧ (∀ k, ¬ k ∈ missingOf annPartial
          → lookupStr a2.prompts k = lookupStr annPartial.prompts k) :=
  reannotate_missing_error_entry svcFail pByIdW filePartial annPartial
    (chars "entities_interactions") (chars "connection refused")
    (by decide) (List.Mem.head _) (by decide) rfl
